import Mathlib

/-!
A verification development for the bibliophage python-server batching core:
the memory-budget estimator (`batch_size_calculator.py`), the outline-aware
and fixed-size partitioners (`pdf_outline_inspector.py`,
`docling_batched.py`, `loading_service_implementation.py`) and the
batch-processing loops of `docling_batched.convert_pdf_in_batches` and
`LoadingServiceImplementation.load_pdf`.

Pages are modelled as `Int` (Python integers).  Python float arithmetic in
the batch-size calculator is modelled as exact rational arithmetic over `ℚ`.
-/

namespace Bibliophage

/-- One outline/bookmark item as produced by `extract_outline` in
`pdf_outline_inspector.py`: a title, a 1-indexed page (possibly absent),
and a 0-indexed nesting level. -/
structure OutlineItem where
  title : String
  page : Option Int
  level : Int
deriving DecidableEq, Repr

/-- The page of an item whose page is known to be present (the partitioner
only touches items that passed the `page is not None` filter). -/
def OutlineItem.pageNum (c : OutlineItem) : Int := c.page.getD 0

/-- The sort key order used by `sorted(chapters, key=lambda x: x['page'])`. -/
def pageLE (a b : OutlineItem) : Prop := a.pageNum ≤ b.pageNum

instance : DecidableRel pageLE := fun a b => Int.decLe a.pageNum b.pageNum

/-- `get_top_level_chapters` (pdf_outline_inspector.py lines 59-78):
keep level-0 items with a defined page, fall back to level-1 items if there
are none, and sort the result by page.  Python's `sorted` is a stable sort;
it is modelled by the (stable) insertion sort. -/
def get_top_level_chapters (outline_items : List OutlineItem) : List OutlineItem :=
  let chapters := outline_items.filter (fun it => it.level == 0 && it.page.isSome)
  let chapters :=
    if chapters.isEmpty then
      outline_items.filter (fun it => it.level == 1 && it.page.isSome)
    else chapters
  chapters.insertionSort pageLE

/-- The body of Python's
`for sub_start in range(chapter_start, chapter_end + 1, max_batch_size)`
loop that splits an oversized chapter (pdf_outline_inspector.py lines
130-132).  The `fuel` argument bounds the number of iterations for
termination; called with fuel `(chapter_end + 1 - sub_start).toNat` it is
exact for every `max_batch_size ≥ 1`, which is the only regime in which the
Python `range` call is defined (step 0 raises `ValueError`). -/
def splitLoop (title : String) (chapter_end max_batch_size : Int) :
    Nat → Int → List (Int × Int × String)
  | 0, _ => []
  | fuel + 1, sub_start =>
    if sub_start ≤ chapter_end then
      (sub_start, min (sub_start + max_batch_size - 1) chapter_end, title ++ " (part)") ::
        splitLoop title chapter_end max_batch_size fuel (sub_start + max_batch_size)
    else []

/-- Splitting one oversized chapter `[chapter_start, chapter_end]` into
consecutive sub-batches of at most `max_batch_size` pages
(pdf_outline_inspector.py lines 128-132). -/
def splitChapter (title : String) (chapter_start chapter_end max_batch_size : Int) :
    List (Int × Int × String) :=
  splitLoop title chapter_end max_batch_size (chapter_end + 1 - chapter_start).toNat chapter_start

/-- `" + ".join(c['title'] for c in current_chapters)`. -/
def joinTitles (current_chapters : List OutlineItem) : String :=
  String.intercalate " + " (current_chapters.map OutlineItem.title)

/-- "Determine chapter end (start of next chapter or end of PDF)"
(pdf_outline_inspector.py lines 112-115): the end page of the chapter whose
successors in the sorted chapter list are `rest`. -/
def chapterEndOf (total_pages : Int) : List OutlineItem → Int
  | next :: _ => next.pageNum - 1
  | [] => total_pages

/-- The chapter walk of `analyze_outline_for_batching`
(pdf_outline_inspector.py lines 104-158), recursion over the remaining
chapters.  The chapter end is the next chapter's page minus one, or
`total_pages` for the last chapter; state is the pending batch start
`current_start` and the accumulated `current_chapters`. -/
def analyzeLoop (total_pages max_batch_size : Int) :
    Int → List OutlineItem → List OutlineItem → List (Int × Int × String)
  | current_start, current_chapters, [] =>
    -- Finalize last batch
    if current_chapters.isEmpty then []
    else [(current_start, total_pages, joinTitles current_chapters)]
  | current_start, current_chapters, chapter :: rest =>
    let chapter_start := chapter.pageNum
    let chapter_end := chapterEndOf total_pages rest
    let chapter_size := chapter_end - chapter_start + 1
    if chapter_size > max_batch_size then
      -- Finalise any pending batch first, then split the large chapter
      (if current_chapters.isEmpty then []
       else [(current_start, chapter_start - 1, joinTitles current_chapters)]) ++
      splitChapter chapter.title chapter_start chapter_end max_batch_size ++
      analyzeLoop total_pages max_batch_size (chapter_end + 1) [] rest
    else
      let current_size := chapter_end - current_start + 1
      if current_size > max_batch_size then
        -- Finalise current batch without this chapter; start a new one with it
        (current_start, chapter_start - 1, joinTitles current_chapters) ::
          analyzeLoop total_pages max_batch_size chapter_start [chapter] rest
      else
        -- Add chapter to current batch
        analyzeLoop total_pages max_batch_size current_start (current_chapters ++ [chapter]) rest

/-- `analyze_outline_for_batching` (pdf_outline_inspector.py lines 81-158):
returns `(start_page, end_page, description)` triples, or `[]` when there is
no outline or no usable chapter. -/
def analyze_outline_for_batching (outline_items : List OutlineItem)
    (total_pages max_batch_size : Int) : List (Int × Int × String) :=
  if outline_items.isEmpty then []
  else
    let chapters := get_top_level_chapters outline_items
    if chapters.isEmpty then []
    else analyzeLoop total_pages max_batch_size 1 [] chapters

/-- The fixed-size batching loop
`for i in range(0, total_pages, batch_size)` (docling_batched.py lines
87-90, loading_service_implementation.py lines 131-134).  `fuel` bounds the
iterations; with fuel `(total_pages - i).toNat` it is exact for every
`batch_size ≥ 1`. -/
def fixedLoop (total_pages batch_size : Int) :
    Nat → Int → List (Int × Int × String)
  | 0, _ => []
  | fuel + 1, i =>
    if i < total_pages then
      (i + 1, min (i + batch_size) total_pages,
        "Pages " ++ toString (i + 1) ++ "-" ++ toString (min (i + batch_size) total_pages)) ::
        fixedLoop total_pages batch_size fuel (i + batch_size)
    else []

/-- The fixed-size partitioner: consecutive ranges of `batch_size` pages,
the last shortened to `total_pages`, each described as
`"Pages {start}-{end}"`. -/
def fixedBatches (total_pages batch_size : Int) : List (Int × Int × String) :=
  fixedLoop total_pages batch_size total_pages.toNat 0

/-- `chainEnd lo rs = some hi` iff the ranges `rs` are non-empty inclusive
intervals that tile `[lo, hi]` exactly: the first starts at `lo`, each next
range starts one page after the previous one ends, and the last ends at
`hi`.  `chainEnd lo [] = some (lo - 1)` (nothing covered yet). -/
def chainEnd : Int → List (Int × Int × String) → Option Int
  | lo, [] => some (lo - 1)
  | lo, r :: rest =>
    if r.1 = lo ∧ r.1 ≤ r.2.1 then chainEnd (r.2.1 + 1) rest else none

/-- The ranges cover `[lo, hi]` exactly once, contiguously, in ascending
order, with no gaps or overlaps. -/
def coversExactly (lo hi : Int) (rs : List (Int × Int × String)) : Bool :=
  chainEnd lo rs == some hi

/-- The page span of a `(start_page, end_page, description)` range. -/
def spanOf (r : Int × Int × String) : Int := r.2.1 - r.1 + 1

/-- The outline of spec Scenario B: top-level chapters at pages 1, 6, 11. -/
def scenarioB : List OutlineItem :=
  [⟨"Chapter 1", some 1, 0⟩, ⟨"Chapter 2", some 6, 0⟩, ⟨"Chapter 3", some 11, 0⟩]

/-- A single top-level chapter starting at page 12. -/
def lateChapter : List OutlineItem := [⟨"Chapter 1", some 12, 0⟩]

/-- A single top-level chapter starting at page 5 (oversized when
`total_pages = 20` and `max_batch_size = 10`). -/
def lateBigChapter : List OutlineItem := [⟨"Chapter 1", some 5, 0⟩]

example :
    analyze_outline_for_batching scenarioB 15 10 =
      [(1, 10, "Chapter 1 + Chapter 2"), (11, 15, "Chapter 3")] := by decide

example :
    analyze_outline_for_batching lateChapter 20 10 =
      [(1, 11, ""), (12, 20, "Chapter 1")] := by decide

example :
    analyze_outline_for_batching lateBigChapter 20 10 =
      [(5, 14, "Chapter 1 (part)"), (15, 20, "Chapter 1 (part)")] := by decide

example : coversExactly 1 20 (analyze_outline_for_batching lateBigChapter 20 10) = false := by
  decide

example : fixedBatches 10 5 = [(1, 5, "Pages 1-5"), (6, 10, "Pages 6-10")] := by decide

/-! ## Batch size calculator (`batch_size_calculator.py`)

Python float arithmetic is modelled as exact rational arithmetic.  The
`available_ram_gb is None` auto-detection path queries the host memory
probe (`psutil`, an external collaborator) and is outside this pure model:
the model takes `available_ram_gb` explicitly. -/

/-- Python's `int(x)` on a float: truncation toward zero. -/
def truncInt (q : ℚ) : Int := if 0 ≤ q then ⌊q⌋ else ⌈q⌉

/-- Python's `round(x, 2)`.  (Python rounds ties to even on binary floats;
on the exact rationals of this model ties are rounded half-up.  No claim
depends on the rounded display fields.) -/
def round2 (q : ℚ) : ℚ := (round (q * 100) : ℤ) / 100

/-- The `ValueError` raised by `calculate_batch_size` when usable memory is
not positive; it carries the available amount and the required (overhead)
amount interpolated into the message. -/
inductive BatchSizeError where
  | insufficientMemory (available_ram_gb : ℚ) (overhead_gb : ℚ)
deriving DecidableEq, Repr

/-- The dict returned by `calculate_batch_size`. -/
structure BatchSizeResult where
  recommended_batch_size : Int
  peak_memory_gb : ℚ
  available_ram_gb : ℚ
  memory_per_page_mb : ℚ
  usable_ram_gb : ℚ
  safety_margin : ℚ
deriving DecidableEq, Repr

/-- `calculate_batch_size` (batch_size_calculator.py lines 29-94) with an
explicit `available_ram_gb`. -/
def calculate_batch_size (available_ram_gb : ℚ)
    (memory_per_page_mb : ℚ := 678/10) (overhead_gb : ℚ := 1/2)
    (safety_margin : ℚ := 8/10) (min_batch_size : Int := 1)
    (max_batch_size : Int := 500) : Except BatchSizeError BatchSizeResult :=
  let usable_gb : ℚ := available_ram_gb - overhead_gb
  if usable_gb ≤ 0 then
    Except.error (BatchSizeError.insufficientMemory available_ram_gb overhead_gb)
  else
    let usable_mb : ℚ := usable_gb * 1024
    let theoretical_max_pages : ℚ := usable_mb / memory_per_page_mb
    let safe_max_pages : ℚ := theoretical_max_pages * safety_margin
    let safe_max_batch_size : Int := truncInt safe_max_pages
    let recommended_batch_size : Int := max (min max_batch_size safe_max_batch_size) min_batch_size
    let peak_memory_gb : ℚ := overhead_gb + recommended_batch_size * memory_per_page_mb / 1024
    Except.ok
      { recommended_batch_size := recommended_batch_size
        peak_memory_gb := round2 peak_memory_gb
        available_ram_gb := round2 available_ram_gb
        memory_per_page_mb := memory_per_page_mb
        usable_ram_gb := round2 usable_gb
        safety_margin := safety_margin }

example :
    calculate_batch_size 4 (678/10) (1/2) (8/10) 1 500 =
      Except.ok
        { recommended_batch_size := 42
          peak_memory_gb := 328/100
          available_ram_gb := 4
          memory_per_page_mb := 678/10
          usable_ram_gb := 7/2
          safety_margin := 8/10 } := by
  norm_num [calculate_batch_size, truncInt, round2, round_eq]

/-! ## Batch-processing loops

The conversion engine (Docling's `DocumentConverter.convert`) is an
external collaborator: one call per page range, which either returns a
result whose status is `SUCCESS` (with a markdown export), returns a
non-success status, or raises.  It is modelled as a function from the page
range to one of these three outcomes. -/

/-- Outcome of one engine call on a page range. -/
inductive EngineOutcome where
  /-- `conv_result.status == ConversionStatus.SUCCESS`; carries
  `conv_result.document.export_to_markdown()`. -/
  | success (markdown : String)
  /-- `conv_result.status != ConversionStatus.SUCCESS`; carries
  `str(conv_result.status)`. -/
  | failure (status : String)
  /-- `doc_converter.convert` (or the batch body) raised; carries
  `str(e)`. -/
  | error (msg : String)
deriving DecidableEq, Repr

/-- The conversion engine, abstracted over the document handle (fixed for
one run): page range in, outcome out. -/
def Engine : Type := Int → Int → EngineOutcome

/-- Mutable statistics of `convert_pdf_in_batches`
(docling_batched.py lines 111-118), without the wall-clock fields. -/
structure RunStats where
  total_pages : Int
  processed_pages : Int
  successful_batches : Nat
  failed_batches : Nat
deriving DecidableEq, Repr

/-- One iteration of the batch loop of `convert_pdf_in_batches`
(docling_batched.py lines 134-198).  `batch_num` is the 0-based enumerate
index; the sink is the list of strings passed to `output_file.write`. -/
def doclingStep (engine : Engine) (batch_num : Nat) (b : Int × Int × String)
    (stats : RunStats) (sink : List String) : RunStats × List String :=
  let (start_page, end_page, description) := b
  let pages_in_batch := end_page - start_page + 1
  match engine start_page end_page with
  | EngineOutcome.failure status =>
    ({ stats with failed_batches := stats.failed_batches + 1 },
     sink ++ ["\n<!-- BATCH " ++ toString (batch_num + 1) ++ " FAILED: " ++ status ++ " -->\n\n"])
  | EngineOutcome.success markdown =>
    ({ stats with
        processed_pages := stats.processed_pages + pages_in_batch
        successful_batches := stats.successful_batches + 1 },
     sink ++
       ["\n<!-- Batch " ++ toString (batch_num + 1) ++ ": Pages " ++ toString start_page ++
          "-" ++ toString end_page ++ " - " ++ description ++ " -->\n\n",
        markdown, "\n\n", "---\n\n"])
  | EngineOutcome.error msg =>
    ({ stats with failed_batches := stats.failed_batches + 1 },
     sink ++ ["\n<!-- BATCH " ++ toString (batch_num + 1) ++ " ERROR: " ++ msg ++ " -->\n\n"])

/-- The batch loop of `convert_pdf_in_batches`, folded over the remaining
batches. -/
def doclingLoop (engine : Engine) :
    Nat → RunStats × List String → List (Int × Int × String) → RunStats × List String
  | _, acc, [] => acc
  | batch_num, (stats, sink), b :: rest =>
    doclingLoop engine (batch_num + 1) (doclingStep engine batch_num b stats sink) rest

/-- Initial statistics (docling_batched.py lines 111-118). -/
def initStats (total_pages : Int) : RunStats :=
  { total_pages := total_pages, processed_pages := 0
    successful_batches := 0, failed_batches := 0 }

/-- A full run of the batch loop of `convert_pdf_in_batches` over a batch
list, starting from the post-header sink state. -/
def doclingRun (engine : Engine) (total_pages : Int)
    (batches : List (Int × Int × String)) : RunStats × List String :=
  doclingLoop engine 0 (initStats total_pages, []) batches

/-- One entry of the `processed_batches` ledger built by
`LoadingServiceImplementation.load_pdf`
(loading_service_implementation.py lines 175-218). -/
structure BatchEntry where
  batch_number : Nat
  start_page : Int
  end_page : Int
  description : String
  status : String
  markdown : Option String
  error : Option String
  success : Bool
deriving DecidableEq, Repr

/-- One iteration of the batch loop of `load_pdf`
(loading_service_implementation.py lines 157-219): appends exactly one
ledger entry per batch and bumps one of the two counters. -/
def loadStep (engine : Engine) (batch_num : Nat) (b : Int × Int × String)
    (acc : List BatchEntry × Nat × Nat) : List BatchEntry × Nat × Nat :=
  let (start_page, end_page, description) := b
  let (processed_batches, successful_batches, failed_batches) := acc
  match engine start_page end_page with
  | EngineOutcome.failure status =>
    (processed_batches ++
       [{ batch_number := batch_num + 1, start_page := start_page, end_page := end_page
          description := description, status := status, markdown := none
          error := none, success := false }],
     successful_batches, failed_batches + 1)
  | EngineOutcome.success markdown =>
    (processed_batches ++
       [{ batch_number := batch_num + 1, start_page := start_page, end_page := end_page
          description := description, status := "SUCCESS", markdown := some markdown
          error := none, success := true }],
     successful_batches + 1, failed_batches)
  | EngineOutcome.error msg =>
    (processed_batches ++
       [{ batch_number := batch_num + 1, start_page := start_page, end_page := end_page
          description := description, status := "ERROR", markdown := none
          error := some msg, success := false }],
     successful_batches, failed_batches + 1)

/-- The batch loop of `load_pdf`, folded over the remaining batches. -/
def loadLoop (engine : Engine) :
    Nat → List BatchEntry × Nat × Nat → List (Int × Int × String) → List BatchEntry × Nat × Nat
  | _, acc, [] => acc
  | batch_num, acc, b :: rest => loadLoop engine (batch_num + 1) (loadStep engine batch_num b acc) rest

/-- A full run of the `load_pdf` batch loop:
`(processed_batches, successful_batches, failed_batches)`. -/
def loadRun (engine : Engine) (batches : List (Int × Int × String)) :
    List BatchEntry × Nat × Nat :=
  loadLoop engine 0 ([], 0, 0) batches

/-- The pages a batch `(s, e)` contributes to `processed_pages`: its page
count when the engine succeeds on it, 0 otherwise. -/
def successPages (engine : Engine) (s e : Int) : Int :=
  match engine s e with
  | EngineOutcome.success _ => e - s + 1
  | _ => 0

/-- Sum of the page counts of the batches the engine succeeds on. -/
def sumSuccessPages (engine : Engine) : List (Int × Int × String) → Int
  | [] => 0
  | (s, e, _) :: rest => successPages engine s e + sumSuccessPages engine rest

/-- The single failure or error marker `convert_pdf_in_batches` writes to
the sink for a batch the engine does not succeed on (docling_batched.py
lines 155 and 194); `none` when the engine succeeds. -/
def failureMark (batch_num : Nat) : EngineOutcome → Option String
  | EngineOutcome.success _ => none
  | EngineOutcome.failure status =>
    some ("\n<!-- BATCH " ++ toString (batch_num + 1) ++ " FAILED: " ++ status ++ " -->\n\n")
  | EngineOutcome.error msg =>
    some ("\n<!-- BATCH " ++ toString (batch_num + 1) ++ " ERROR: " ++ msg ++ " -->\n\n")

/-! ## Helper lemmas -/

theorem chainEnd_append (xs ys : List (Int × Int × String)) :
    ∀ lo : Int, chainEnd lo (xs ++ ys) = (chainEnd lo xs).bind (fun m => chainEnd (m + 1) ys) := by
  induction xs with
  | nil => intro lo; simp [chainEnd]
  | cons r rest ih =>
    intro lo
    by_cases h : r.1 = lo ∧ r.1 ≤ r.2.1
    · simp only [List.cons_append, chainEnd, if_pos h]
      exact ih _
    · simp only [List.cons_append, chainEnd, if_neg h, Option.bind]

theorem coversExactly_of_chainEnd {lo hi : Int} {rs : List (Int × Int × String)}
    (h : chainEnd lo rs = some hi) : coversExactly lo hi rs = true := by
  simp [coversExactly, h]

theorem chainEnd_cons (lo s e : Int) (d : String) (rest : List (Int × Int × String))
    (h1 : s = lo) (h2 : s ≤ e) :
    chainEnd lo ((s, e, d) :: rest) = chainEnd (e + 1) rest := by
  rw [chainEnd, if_pos ⟨h1, h2⟩]

theorem fixedLoop_eq_nil (total_pages batch_size : Int) (fuel : Nat) (i : Int)
    (h : total_pages ≤ i) : fixedLoop total_pages batch_size fuel i = [] := by
  cases fuel with
  | zero => rfl
  | succ n => simp [fixedLoop, not_lt.mpr h]

theorem fixedLoop_chainEnd (total_pages batch_size : Int) (hb : 1 ≤ batch_size) :
    ∀ (fuel : Nat) (i : Int), i < total_pages → (total_pages - i).toNat ≤ fuel →
      chainEnd (i + 1) (fixedLoop total_pages batch_size fuel i) = some total_pages := by
  intro fuel
  induction fuel with
  | zero => intro i hi hfuel; omega
  | succ n ih =>
    intro i hi hfuel
    rw [fixedLoop, if_pos hi, chainEnd, if_pos ⟨rfl, by simp; omega⟩]
    simp only
    rcases lt_or_le (i + batch_size) total_pages with h | h
    · rw [min_eq_left h.le]
      exact ih (i + batch_size) h (by omega)
    · rw [min_eq_right h, fixedLoop_eq_nil total_pages batch_size n _ h, chainEnd]
      exact congrArg some (by omega)

theorem fixedLoop_mem (total_pages batch_size : Int) :
    ∀ (fuel : Nat) (i : Int) (r : Int × Int × String),
      r ∈ fixedLoop total_pages batch_size fuel i →
      r.2.1 = min (r.1 + batch_size - 1) total_pages ∧
        r.2.2 = "Pages " ++ toString r.1 ++ "-" ++ toString r.2.1 := by
  intro fuel
  induction fuel with
  | zero => intro i r hr; simp [fixedLoop] at hr
  | succ n ih =>
    intro i r hr
    rw [fixedLoop] at hr
    by_cases hi : i < total_pages
    · rw [if_pos hi] at hr
      rcases List.mem_cons.mp hr with h | h
      · subst h
        refine ⟨?_, rfl⟩
        simp only
        omega
      · exact ih (i + batch_size) r h
    · rw [if_neg hi] at hr
      simp at hr

theorem splitLoop_eq_nil (title : String) (chapter_end max_batch_size : Int) (fuel : Nat)
    (s : Int) (h : chapter_end < s) :
    splitLoop title chapter_end max_batch_size fuel s = [] := by
  cases fuel with
  | zero => rfl
  | succ n => simp [splitLoop, not_le.mpr h]

theorem splitLoop_chainEnd (title : String) (chapter_end max_batch_size : Int)
    (hmax : 1 ≤ max_batch_size) :
    ∀ (fuel : Nat) (s : Int), s ≤ chapter_end → (chapter_end + 1 - s).toNat ≤ fuel →
      chainEnd s (splitLoop title chapter_end max_batch_size fuel s) = some chapter_end := by
  intro fuel
  induction fuel with
  | zero => intro s hs hfuel; omega
  | succ n ih =>
    intro s hs hfuel
    rw [splitLoop, if_pos hs, chainEnd, if_pos ⟨rfl, by simp; omega⟩]
    simp only
    rcases lt_or_le (s + max_batch_size - 1) chapter_end with h | h
    · rw [min_eq_left h.le]
      have hstep : s + max_batch_size - 1 + 1 = s + max_batch_size := by omega
      rw [hstep]
      exact ih (s + max_batch_size) (by omega) (by omega)
    · rw [min_eq_right h, splitLoop_eq_nil title chapter_end max_batch_size n _ (by omega),
        chainEnd]
      exact congrArg some (by omega)

theorem splitChapter_chainEnd (title : String)
    (chapter_start chapter_end max_batch_size : Int)
    (hmax : 1 ≤ max_batch_size) (h : chapter_start ≤ chapter_end) :
    chainEnd chapter_start (splitChapter title chapter_start chapter_end max_batch_size) =
      some chapter_end :=
  splitLoop_chainEnd title chapter_end max_batch_size hmax _ chapter_start h (le_refl _)

theorem splitLoop_span (title : String) (chapter_end max_batch_size : Int) :
    ∀ (fuel : Nat) (s : Int) (r : Int × Int × String),
      r ∈ splitLoop title chapter_end max_batch_size fuel s →
      spanOf r ≤ max_batch_size := by
  intro fuel
  induction fuel with
  | zero => intro s r hr; simp [splitLoop] at hr
  | succ n ih =>
    intro s r hr
    rw [splitLoop] at hr
    by_cases hs : s ≤ chapter_end
    · rw [if_pos hs] at hr
      rcases List.mem_cons.mp hr with h | h
      · subst h
        rw [spanOf]
        simp only
        omega
      · exact ih (s + max_batch_size) r h
    · rw [if_neg hs] at hr
      simp at hr

/-- `analyzeLoop` on the empty chapter list: finalize the pending batch
(pdf_outline_inspector.py lines 153-156). -/
theorem analyzeLoop_nil (total_pages max_batch_size current_start : Int)
    (pending : List OutlineItem) :
    analyzeLoop total_pages max_batch_size current_start pending [] =
      if pending.isEmpty then []
      else [(current_start, total_pages, joinTitles pending)] := rfl

/-- `analyzeLoop` on one chapter: the three branches of the walk
(pdf_outline_inspector.py lines 108-151). -/
theorem analyzeLoop_cons (total_pages max_batch_size current_start : Int)
    (pending : List OutlineItem) (c : OutlineItem) (rest : List OutlineItem) :
    analyzeLoop total_pages max_batch_size current_start pending (c :: rest) =
      if chapterEndOf total_pages rest - c.pageNum + 1 > max_batch_size then
        (if pending.isEmpty then []
         else [(current_start, c.pageNum - 1, joinTitles pending)]) ++
          splitChapter c.title c.pageNum (chapterEndOf total_pages rest) max_batch_size ++
          analyzeLoop total_pages max_batch_size (chapterEndOf total_pages rest + 1) [] rest
      else if chapterEndOf total_pages rest - current_start + 1 > max_batch_size then
        (current_start, c.pageNum - 1, joinTitles pending) ::
          analyzeLoop total_pages max_batch_size c.pageNum [c] rest
      else
        analyzeLoop total_pages max_batch_size current_start (pending ++ [c]) rest := rfl

/-- The invariant the chapter walk maintains between iterations, for the
coverage argument: how `current_start` relates to the next chapter (or to
`total_pages` when no chapter is left), depending on whether a batch is
pending. -/
def LoopInv (total_pages max_batch_size current_start : Int)
    (pending cs : List OutlineItem) : Prop :=
  match cs, pending with
  | [], [] => current_start = total_pages + 1
  | [], _ :: _ => current_start ≤ total_pages
  | c :: rest, [] =>
      current_start ≤ c.pageNum ∧
        (current_start = c.pageNum ∨
          chapterEndOf total_pages rest - c.pageNum + 1 ≤ max_batch_size)
  | c :: _, _ :: _ => current_start < c.pageNum

theorem analyzeLoop_chainEnd (total_pages max_batch_size : Int)
    (hmax : 1 ≤ max_batch_size) :
    ∀ (cs : List OutlineItem) (current_start : Int) (pending : List OutlineItem),
      List.Chain' (fun a b => a.pageNum < b.pageNum) cs →
      (∀ x ∈ cs, x.pageNum ≤ total_pages) →
      LoopInv total_pages max_batch_size current_start pending cs →
      chainEnd current_start
          (analyzeLoop total_pages max_batch_size current_start pending cs) =
        some total_pages := by
  intro cs
  induction cs with
  | nil =>
    intro current_start pending _ _ hinv
    cases pending with
    | nil =>
      simp only [LoopInv] at hinv
      rw [analyzeLoop_nil]
      simp [chainEnd, hinv]
    | cons q qs =>
      simp only [LoopInv] at hinv
      rw [analyzeLoop_nil, if_neg (by simp),
        chainEnd_cons current_start current_start total_pages _ _ rfl hinv, chainEnd]
      exact congrArg some (by omega)
  | cons c rest ih =>
    intro current_start pending hchain hle hinv
    have hcle : c.pageNum ≤ total_pages := hle c (List.mem_cons_self c rest)
    have hchain' : List.Chain' (fun a b => a.pageNum < b.pageNum) rest := hchain.tail
    have hle' : ∀ x ∈ rest, x.pageNum ≤ total_pages :=
      fun x hx => hle x (List.mem_cons_of_mem c hx)
    -- the end page of `c` sits just before the next chapter, or at the end
    have hce : ∀ c' r', rest = c' :: r' →
        chapterEndOf total_pages rest = c'.pageNum - 1 := by
      intro c' r' h; rw [h]; rfl
    have hnext : ∀ c' r', rest = c' :: r' → c.pageNum < c'.pageNum := by
      intro c' r' h
      subst h
      exact (List.chain'_cons.mp hchain).1
    rw [analyzeLoop_cons]
    by_cases hbig : chapterEndOf total_pages rest - c.pageNum + 1 > max_batch_size
    · rw [if_pos hbig]
      have hpce : c.pageNum ≤ chapterEndOf total_pages rest := by omega
      have hib : chainEnd (chapterEndOf total_pages rest + 1)
          (analyzeLoop total_pages max_batch_size
            (chapterEndOf total_pages rest + 1) [] rest) = some total_pages := by
        refine ih (chapterEndOf total_pages rest + 1) [] hchain' hle' ?_
        cases rest with
        | nil => simp only [LoopInv, chapterEndOf]
        | cons c' r' =>
          simp only [LoopInv]
          rw [hce c' r' rfl]
          constructor
          · omega
          · left; omega
      cases pending with
      | nil =>
        rw [if_pos (show (List.isEmpty ([] : List OutlineItem)) = true from rfl),
          List.nil_append]
        rcases hinv.2 with hstart | hsmall
        · rw [hstart, chainEnd_append,
            splitChapter_chainEnd c.title c.pageNum (chapterEndOf total_pages rest)
              max_batch_size hmax hpce]
          exact hib
        · omega
      | cons q qs =>
        have hlt : current_start < c.pageNum := hinv
        rw [if_neg (by simp), List.append_assoc, List.singleton_append,
          chainEnd_cons current_start current_start (c.pageNum - 1) _ _ rfl (by omega)]
        have hstep : c.pageNum - 1 + 1 = c.pageNum := by omega
        rw [hstep, chainEnd_append,
          splitChapter_chainEnd c.title c.pageNum (chapterEndOf total_pages rest)
            max_batch_size hmax hpce]
        exact hib
    · rw [if_neg hbig]
      have hsize : chapterEndOf total_pages rest - c.pageNum + 1 ≤ max_batch_size := by omega
      by_cases hcur : chapterEndOf total_pages rest - current_start + 1 > max_batch_size
      · rw [if_pos hcur]
        have hstart : current_start ≤ c.pageNum := by
          cases pending with
          | nil => exact hinv.1
          | cons q qs => exact le_of_lt hinv
        have hlt : current_start < c.pageNum := by omega
        rw [chainEnd_cons current_start current_start (c.pageNum - 1) _ _ rfl (by omega)]
        have hstep : c.pageNum - 1 + 1 = c.pageNum := by omega
        rw [hstep]
        refine ih c.pageNum [c] hchain' hle' ?_
        cases rest with
        | nil => simp only [LoopInv]; exact hcle
        | cons c' r' => simp only [LoopInv]; exact hnext c' r' rfl
      · rw [if_neg hcur]
        have hstart : current_start ≤ c.pageNum := by
          cases pending with
          | nil => exact hinv.1
          | cons q qs => exact le_of_lt hinv
        refine ih current_start (pending ++ [c]) hchain' hle' ?_
        cases rest with
        | nil =>
          cases hpc : pending ++ [c] with
          | nil => simp at hpc
          | cons q qs =>
            simp only [LoopInv]
            omega
        | cons c' r' =>
          cases hpc : pending ++ [c] with
          | nil => simp at hpc
          | cons q qs =>
            simp only [LoopInv]
            have := hnext c' r' rfl
            omega

theorem analyze_outline_eq (outline_items : List OutlineItem) (total_pages max_batch_size : Int)
    (hne : outline_items ≠ []) (hch : get_top_level_chapters outline_items ≠ []) :
    analyze_outline_for_batching outline_items total_pages max_batch_size =
      analyzeLoop total_pages max_batch_size 1 [] (get_top_level_chapters outline_items) := by
  simp only [analyze_outline_for_batching]
  rw [if_neg (by simpa using hne), if_neg (by simpa using hch)]

/-- The page the pending batch must stay below to satisfy the size check:
the next chapter's start page, or one past the end of the document when no
chapter is left. -/
def headLimit (total_pages : Int) : List OutlineItem → Int
  | c :: _ => c.pageNum
  | [] => total_pages + 1

theorem analyzeLoop_span (total_pages max_batch_size : Int) (hmax : 1 ≤ max_batch_size) :
    ∀ (cs : List OutlineItem) (current_start : Int) (pending : List OutlineItem),
      (pending ≠ [] → headLimit total_pages cs - current_start ≤ max_batch_size) →
      ∀ r ∈ analyzeLoop total_pages max_batch_size current_start pending cs,
        spanOf r ≤ max_batch_size ∨
          (pending = [] ∧
            ∃ c rest, cs = c :: rest ∧ r = (current_start, c.pageNum - 1, "")) := by
  intro cs
  induction cs with
  | nil =>
    intro current_start pending hp r hr
    cases pending with
    | nil => rw [analyzeLoop_nil] at hr; simp at hr
    | cons q qs =>
      rw [analyzeLoop_nil, if_neg (by simp)] at hr
      rcases List.mem_singleton.mp hr with rfl
      left
      have := hp (by simp)
      rw [headLimit] at this
      rw [spanOf]
      simp only
      omega
  | cons c rest ih =>
    intro current_start pending hp r hr
    rw [analyzeLoop_cons] at hr
    by_cases hbig : chapterEndOf total_pages rest - c.pageNum + 1 > max_batch_size
    · rw [if_pos hbig] at hr
      rcases List.mem_append.mp hr with hr' | hrec
      · rcases List.mem_append.mp hr' with hflush | hsplit
        · cases pending with
          | nil =>
            rw [if_pos (show (List.isEmpty ([] : List OutlineItem)) = true from rfl)] at hflush
            simp at hflush
          | cons q qs =>
            rw [if_neg (by simp)] at hflush
            rcases List.mem_singleton.mp hflush with rfl
            left
            have := hp (by simp)
            rw [headLimit] at this
            rw [spanOf]
            simp only
            omega
        · exact Or.inl (splitLoop_span c.title (chapterEndOf total_pages rest)
            max_batch_size _ c.pageNum r hsplit)
      · rcases ih (chapterEndOf total_pages rest + 1) [] (fun h => absurd rfl h) r hrec with
          h | ⟨-, c', r', hrest, hr'⟩
        · exact Or.inl h
        · left
          rw [hr', spanOf]
          simp only
          rw [hrest] at *
          rw [chapterEndOf]
          omega
    · rw [if_neg hbig] at hr
      by_cases hcur : chapterEndOf total_pages rest - current_start + 1 > max_batch_size
      · rw [if_pos hcur] at hr
        rcases List.mem_cons.mp hr with rfl | hrec
        · cases pending with
          | nil => exact Or.inr ⟨rfl, c, rest, rfl, rfl⟩
          | cons q qs =>
            left
            have := hp (by simp)
            rw [headLimit] at this
            rw [spanOf]
            simp only
            omega
        · have hside : headLimit total_pages rest - c.pageNum ≤ max_batch_size := by
            cases rest with
            | nil => rw [headLimit]; rw [chapterEndOf] at hbig; omega
            | cons c' r' => rw [headLimit]; rw [chapterEndOf] at hbig; omega
          rcases ih c.pageNum [c] (fun _ => hside) r hrec with h | ⟨hpc, -⟩
          · exact Or.inl h
          · exact absurd hpc (by simp)
      · rw [if_neg hcur] at hr
        have hside : headLimit total_pages rest - current_start ≤ max_batch_size := by
          cases rest with
          | nil => rw [headLimit]; rw [chapterEndOf] at hcur; omega
          | cons c' r' => rw [headLimit]; rw [chapterEndOf] at hcur; omega
        rcases ih current_start (pending ++ [c]) (fun _ => hside) r hr with h | ⟨hpc, -⟩
        · exact Or.inl h
        · exact absurd hpc (by simp)

/-! ## Claims about the partitioners -/

/-- C4: for every `total_pages ≥ 1` and `batch_size ≥ 1`, the fixed-size
partitioner's output is non-empty, tiles `[1, total_pages]` exactly once in
ascending order with no gaps or overlaps, each range ends at
`min (start + batch_size - 1, total_pages)` (so the ranges are the
consecutive blocks `[1, batch_size], [batch_size+1, 2·batch_size], …` with
the final one shortened to `total_pages`), no range spans more than
`batch_size` pages, and every description is `"Pages {start}-{end}"`. -/
theorem fixed_partitioner_correct (total_pages batch_size : Int)
    (ht : 1 ≤ total_pages) (hb : 1 ≤ batch_size) :
    fixedBatches total_pages batch_size ≠ [] ∧
      coversExactly 1 total_pages (fixedBatches total_pages batch_size) = true ∧
      ∀ r ∈ fixedBatches total_pages batch_size,
        spanOf r ≤ batch_size ∧
          r.2.1 = min (r.1 + batch_size - 1) total_pages ∧
          r.2.2 = "Pages " ++ toString r.1 ++ "-" ++ toString r.2.1 := by
  refine ⟨?_, ?_, ?_⟩
  · rw [fixedBatches]
    have h0 : (0 : Int) < total_pages := ht
    rcases hf : total_pages.toNat with _ | n
    · omega
    · rw [fixedLoop, if_pos h0]
      simp
  · refine coversExactly_of_chainEnd ?_
    have := fixedLoop_chainEnd total_pages batch_size hb total_pages.toNat 0 ht (by omega)
    simpa using this
  · intro r hr
    have hmem := fixedLoop_mem total_pages batch_size total_pages.toNat 0 r hr
    refine ⟨?_, hmem.1, hmem.2⟩
    have : r.2.1 = min (r.1 + batch_size - 1) total_pages := hmem.1
    rw [spanOf, this]
    omega

/-- Witness for `fixed_partitioner_correct` at `total_pages = 10`,
`batch_size = 5` (spec Scenario A). -/
theorem fixed_partitioner_correct_witness :
    (1 : Int) ≤ 10 ∧ (1 : Int) ≤ 5 ∧
      (fixedBatches 10 5 ≠ [] ∧
        coversExactly 1 10 (fixedBatches 10 5) = true ∧
        ∀ r ∈ fixedBatches 10 5,
          spanOf r ≤ 5 ∧
            r.2.1 = min (r.1 + 5 - 1) 10 ∧
            r.2.2 = "Pages " ++ toString r.1 ++ "-" ++ toString r.2.1) :=
  ⟨by decide, by decide, fixed_partitioner_correct 10 5 (by decide) (by decide)⟩

/-- C9: on the outline with chapters at pages 1, 6 and 11, with
`total_pages = 15` and `max_batch_size = 10`, the outline partitioner
returns exactly `[(1, 10, "Chapter 1 + Chapter 2"), (11, 15, "Chapter 3")]`:
chapters 1 and 2 merge because their combined span is exactly 10 pages,
and chapter 3 starts a new batch because merging it would span 15 > 10
pages. -/
theorem outline_partitioner_scenario_b :
    analyze_outline_for_batching scenarioB 15 10 =
      [(1, 10, "Chapter 1 + Chapter 2"), (11, 15, "Chapter 3")] := by decide

/-- C10: for the single chapter at page 12 with `total_pages = 20` and
`max_batch_size = 10`, the outline partitioner returns a leading range
`(1, 11)` whose description is the empty string, so not every returned
description is a chapter title, joined titles, a `"{title} (part)"` label,
or a `"Pages X-Y"` label. -/
theorem outline_partitioner_empty_description :
    analyze_outline_for_batching lateChapter 20 10 =
        [(1, 11, ""), (12, 20, "Chapter 1")] ∧
      (1, 11, "") ∈ analyze_outline_for_batching lateChapter 20 10 := by decide

/-- Counterexample to C1 as stated: the outline with a single usable
chapter marker at page 5, `total_pages = 20 ≥ 1` and `max_batch_size = 10`.
The chapter alone spans 16 > 10 pages and there is no pending batch to
flush, so the split starts at page 5 and pages 1-4 are never covered. -/
theorem outline_partitioner_coverage_counterexample :
    get_top_level_chapters lateBigChapter ≠ [] ∧
      analyze_outline_for_batching lateBigChapter 20 10 =
        [(5, 14, "Chapter 1 (part)"), (15, 20, "Chapter 1 (part)")] ∧
      coversExactly 1 20 (analyze_outline_for_batching lateBigChapter 20 10) = false := by
  decide

/-- C1 (amended): for every outline whose usable chapter markers, after
filtering and sorting, are at strictly increasing pages in
`[1, total_pages]`, every `max_batch_size ≥ 1`, **and** whose first chapter
either starts at page 1 or itself spans at most `max_batch_size` pages, the
outline partitioner's output covers `[1, total_pages]` exactly once,
contiguously, in ascending order, with no gaps or overlaps — including
leading pages that precede the first chapter marker.  (The original claim,
without the condition on the first chapter, fails: see the
counterexample.) -/
theorem outline_partitioner_coverage (outline_items : List OutlineItem)
    (total_pages max_batch_size : Int) (c : OutlineItem) (rest : List OutlineItem)
    (hcs : get_top_level_chapters outline_items = c :: rest)
    (hmax : 1 ≤ max_batch_size)
    (hmono : List.Chain' (fun a b => a.pageNum < b.pageNum) (c :: rest))
    (hlow : 1 ≤ c.pageNum)
    (hhigh : ∀ x ∈ c :: rest, x.pageNum ≤ total_pages)
    (hfirst : c.pageNum = 1 ∨
      chapterEndOf total_pages rest - c.pageNum + 1 ≤ max_batch_size) :
    coversExactly 1 total_pages
      (analyze_outline_for_batching outline_items total_pages max_batch_size) = true := by
  have hne : outline_items ≠ [] := by
    intro h
    rw [h] at hcs
    exact absurd hcs (by simp [get_top_level_chapters])
  rw [analyze_outline_eq outline_items total_pages max_batch_size hne (by rw [hcs]; simp), hcs]
  refine coversExactly_of_chainEnd
    (analyzeLoop_chainEnd total_pages max_batch_size hmax (c :: rest) 1 [] hmono hhigh ?_)
  refine ⟨hlow, ?_⟩
  rcases hfirst with h | h
  · left; omega
  · right; exact h

/-- Witness for `outline_partitioner_coverage` on spec Scenario B:
chapters at pages 1, 6, 11, `total_pages = 15`, `max_batch_size = 10`. -/
theorem outline_partitioner_coverage_witness :
    (get_top_level_chapters scenarioB =
        ⟨"Chapter 1", some 1, 0⟩ ::
          [⟨"Chapter 2", some 6, 0⟩, ⟨"Chapter 3", some 11, 0⟩] ∧
      (1 : Int) ≤ 10 ∧
      List.Chain' (fun a b : OutlineItem => a.pageNum < b.pageNum)
        (⟨"Chapter 1", some 1, 0⟩ ::
          [⟨"Chapter 2", some 6, 0⟩, ⟨"Chapter 3", some 11, 0⟩]) ∧
      (1 : Int) ≤ (⟨"Chapter 1", some 1, 0⟩ : OutlineItem).pageNum ∧
      (∀ x ∈ (⟨"Chapter 1", some 1, 0⟩ : OutlineItem) ::
          [⟨"Chapter 2", some 6, 0⟩, ⟨"Chapter 3", some 11, 0⟩],
        x.pageNum ≤ (15 : Int)) ∧
      ((⟨"Chapter 1", some 1, 0⟩ : OutlineItem).pageNum = 1 ∨
        chapterEndOf 15 [⟨"Chapter 2", some 6, 0⟩, ⟨"Chapter 3", some 11, 0⟩] -
            (⟨"Chapter 1", some 1, 0⟩ : OutlineItem).pageNum + 1 ≤ 10)) ∧
      coversExactly 1 15 (analyze_outline_for_batching scenarioB 15 10) = true :=
  ⟨⟨by decide, by decide,
      List.chain'_cons.mpr ⟨by decide, List.chain'_cons.mpr ⟨by decide, List.chain'_singleton _⟩⟩,
      by decide, by decide, by decide⟩,
    outline_partitioner_coverage scenarioB 15 10 ⟨"Chapter 1", some 1, 0⟩
      [⟨"Chapter 2", some 6, 0⟩, ⟨"Chapter 3", some 11, 0⟩] (by decide) (by decide)
      (List.chain'_cons.mpr ⟨by decide, List.chain'_cons.mpr ⟨by decide, List.chain'_singleton _⟩⟩)
      (by decide) (by decide) (by decide)⟩

/-- C2 (amended): for every outline and every `max_batch_size ≥ 1`, each
range the outline partitioner returns spans at most `max_batch_size` pages
— including the sub-ranges an oversized chapter is split into — with one
exception: the leading range `(1, first_chapter_page - 1, "")` flushed
before the first chapter when no chapters have accumulated may exceed the
limit.  (The original claim, which allows no exception besides oversized
chapter splits, fails: see the counterexample.) -/
theorem outline_partitioner_span (outline_items : List OutlineItem)
    (total_pages max_batch_size : Int) (hmax : 1 ≤ max_batch_size) :
    ∀ r ∈ analyze_outline_for_batching outline_items total_pages max_batch_size,
      spanOf r ≤ max_batch_size ∨
        ∃ c rest, get_top_level_chapters outline_items = c :: rest ∧
          r = (1, c.pageNum - 1, "") := by
  intro r hr
  by_cases hne : outline_items = []
  · subst hne
    rw [show analyze_outline_for_batching [] total_pages max_batch_size = [] from rfl] at hr
    simp at hr
  · cases hcs : get_top_level_chapters outline_items with
    | nil =>
      rw [analyze_outline_for_batching, if_neg (by simpa using hne)] at hr
      rw [hcs] at hr
      simp at hr
    | cons c rest =>
      rw [analyze_outline_eq outline_items total_pages max_batch_size hne
        (by rw [hcs]; simp), hcs] at hr
      rcases analyzeLoop_span total_pages max_batch_size hmax (c :: rest) 1 []
          (fun h => absurd rfl h) r hr with h | ⟨-, c', rest', heq, hr'⟩
      · exact Or.inl h
      · exact Or.inr ⟨c', rest', heq, hr'⟩

/-- Witness for `outline_partitioner_span` on the single chapter at page
12 with `total_pages = 20`, `max_batch_size = 10`. -/
theorem outline_partitioner_span_witness :
    (1 : Int) ≤ 10 ∧
      ∀ r ∈ analyze_outline_for_batching lateChapter 20 10,
        spanOf r ≤ 10 ∨
          ∃ c rest, get_top_level_chapters lateChapter = c :: rest ∧
            r = (1, c.pageNum - 1, "") :=
  ⟨by decide, outline_partitioner_span lateChapter 20 10 (by decide)⟩

/-- Counterexample to C2 as stated: with the single chapter at page 12,
`total_pages = 20` and `max_batch_size = 10`, no chapter's own span exceeds
the limit (the sole chapter spans 9 pages), yet the returned leading range
`(1, 11, "")` spans 11 > 10 pages. -/
theorem outline_partitioner_span_counterexample :
    get_top_level_chapters lateChapter = [⟨"Chapter 1", some 12, 0⟩] ∧
      chapterEndOf 20 [] - 12 + 1 ≤ 10 ∧
      (1, 11, "") ∈ analyze_outline_for_batching lateChapter 20 10 ∧
      ¬ spanOf (1, 11, "") ≤ 10 := by decide

/-! ## Claims about the batch-processing loops -/

theorem doclingLoop_append (engine : Engine) (l1 l2 : List (Int × Int × String)) :
    ∀ (n : Nat) (acc : RunStats × List String),
      doclingLoop engine n acc (l1 ++ l2) =
        doclingLoop engine (n + l1.length) (doclingLoop engine n acc l1) l2 := by
  induction l1 with
  | nil => intro n acc; simp [doclingLoop]
  | cons b rest ih =>
    intro n acc
    rcases acc with ⟨stats, sink⟩
    calc doclingLoop engine n (stats, sink) ((b :: rest) ++ l2)
        = doclingLoop engine (n + 1) (doclingStep engine n b stats sink) (rest ++ l2) := rfl
      _ = doclingLoop engine (n + 1 + rest.length)
            (doclingLoop engine (n + 1) (doclingStep engine n b stats sink) rest) l2 :=
          ih (n + 1) _
      _ = doclingLoop engine (n + (b :: rest).length)
            (doclingLoop engine n (stats, sink) (b :: rest)) l2 := by
          have h : n + 1 + rest.length = n + (b :: rest).length := by
            simp only [List.length_cons]
            omega
          rw [h]
          rfl

theorem doclingStep_stats (engine : Engine) (n : Nat) (s e : Int) (d : String)
    (stats : RunStats) (sink : List String) :
    (doclingStep engine n (s, e, d) stats sink).1.total_pages = stats.total_pages ∧
      (doclingStep engine n (s, e, d) stats sink).1.processed_pages =
        stats.processed_pages + successPages engine s e ∧
      (doclingStep engine n (s, e, d) stats sink).1.successful_batches +
          (doclingStep engine n (s, e, d) stats sink).1.failed_batches =
        stats.successful_batches + stats.failed_batches + 1 := by
  rcases heng : engine s e with md | st | msg <;>
    simp [doclingStep, successPages, heng] <;> omega

theorem doclingLoop_stats (engine : Engine) :
    ∀ (l : List (Int × Int × String)) (n : Nat) (stats : RunStats) (sink : List String),
      (doclingLoop engine n (stats, sink) l).1.total_pages = stats.total_pages ∧
        (doclingLoop engine n (stats, sink) l).1.processed_pages =
          stats.processed_pages + sumSuccessPages engine l ∧
        (doclingLoop engine n (stats, sink) l).1.successful_batches +
            (doclingLoop engine n (stats, sink) l).1.failed_batches =
          stats.successful_batches + stats.failed_batches + l.length := by
  intro l
  induction l with
  | nil => intro n stats sink; simp [doclingLoop, sumSuccessPages]
  | cons b rest ih =>
    intro n stats sink
    rcases b with ⟨s, e, d⟩
    rw [doclingLoop]
    rcases hstep : doclingStep engine n (s, e, d) stats sink with ⟨stats1, sink1⟩
    obtain ⟨g1, g2, g3⟩ := doclingStep_stats engine n s e d stats sink
    rw [hstep] at g1 g2 g3
    obtain ⟨h1, h2, h3⟩ := ih (n + 1) stats1 sink1
    refine ⟨?_, ?_, ?_⟩
    · rw [h1, g1]
    · rw [h2, g2, sumSuccessPages]
      omega
    · rw [h3, g3, List.length_cons]
      omega

theorem loadLoop_append (engine : Engine) (l1 l2 : List (Int × Int × String)) :
    ∀ (n : Nat) (acc : List BatchEntry × Nat × Nat),
      loadLoop engine n acc (l1 ++ l2) =
        loadLoop engine (n + l1.length) (loadLoop engine n acc l1) l2 := by
  induction l1 with
  | nil => intro n acc; simp [loadLoop]
  | cons b rest ih =>
    intro n acc
    calc loadLoop engine n acc ((b :: rest) ++ l2)
        = loadLoop engine (n + 1) (loadStep engine n b acc) (rest ++ l2) := rfl
      _ = loadLoop engine (n + 1 + rest.length)
            (loadLoop engine (n + 1) (loadStep engine n b acc) rest) l2 := ih (n + 1) _
      _ = loadLoop engine (n + (b :: rest).length)
            (loadLoop engine n acc (b :: rest)) l2 := by
          have h : n + 1 + rest.length = n + (b :: rest).length := by
            simp only [List.length_cons]
            omega
          rw [h]
          rfl

theorem loadStep_ledger (engine : Engine) (n : Nat) (s e : Int) (d : String)
    (acc : List BatchEntry × Nat × Nat) :
    (loadStep engine n (s, e, d) acc).1.length = acc.1.length + 1 ∧
      (loadStep engine n (s, e, d) acc).2.1 + (loadStep engine n (s, e, d) acc).2.2 =
        acc.2.1 + acc.2.2 + 1 := by
  rcases acc with ⟨led, sb, fb⟩
  rcases heng : engine s e with md | st | msg <;> simp [loadStep, heng] <;> omega

theorem loadLoop_ledger (engine : Engine) :
    ∀ (l : List (Int × Int × String)) (n : Nat) (acc : List BatchEntry × Nat × Nat),
      (loadLoop engine n acc l).1.length = acc.1.length + l.length ∧
        (loadLoop engine n acc l).2.1 + (loadLoop engine n acc l).2.2 =
          acc.2.1 + acc.2.2 + l.length := by
  intro l
  induction l with
  | nil => intro n acc; simp [loadLoop]
  | cons b rest ih =>
    intro n acc
    rcases b with ⟨s, e, d⟩
    rw [loadLoop]
    obtain ⟨g1, g2⟩ := loadStep_ledger engine n s e d acc
    obtain ⟨h1, h2⟩ := ih (n + 1) (loadStep engine n (s, e, d) acc)
    refine ⟨?_, ?_⟩
    · rw [h1, g1, List.length_cons]
      omega
    · rw [h2, g2, List.length_cons]
      omega

/-- C8: after any prefix of the batch sequence, the statistics of
`convert_pdf_in_batches` satisfy `processed_pages = Σ (pages of successful
batches)` and `successful_batches + failed_batches = #batches attempted`,
and the counters of `load_pdf` satisfy `successful_batches +
failed_batches = len(processed_batches)` (the ledger length). -/
theorem batch_stats_invariant (engine : Engine) (total_pages : Int)
    (batches : List (Int × Int × String)) (n : Nat) :
    (doclingRun engine total_pages (batches.take n)).1.processed_pages =
        sumSuccessPages engine (batches.take n) ∧
      (doclingRun engine total_pages (batches.take n)).1.successful_batches +
          (doclingRun engine total_pages (batches.take n)).1.failed_batches =
        (batches.take n).length ∧
      (loadRun engine (batches.take n)).2.1 + (loadRun engine (batches.take n)).2.2 =
        (loadRun engine (batches.take n)).1.length := by
  obtain ⟨-, h2, h3⟩ :=
    doclingLoop_stats engine (batches.take n) 0 (initStats total_pages) []
  obtain ⟨g1, g2⟩ := loadLoop_ledger engine (batches.take n) 0 ([], 0, 0)
  refine ⟨?_, ?_, ?_⟩
  · rw [doclingRun, h2]
    simp [initStats]
  · rw [doclingRun, h3]
    simp [initStats]
  · rw [loadRun, g1, g2]
    simp

/-- C3: when the engine reports a non-success status or raises on batch
`k`, the batch loop of `convert_pdf_in_batches` writes exactly one
failure/error marker to the sink for that batch (and no markdown content),
increments `failed_batches` by exactly one while leaving
`successful_batches` and `processed_pages` unchanged, and the run continues
through every remaining batch: the `load_pdf` ledger of the same engine
run still holds one entry per batch.  The failure never propagates out of
the loop. -/
theorem batch_failure_isolated (engine : Engine) (total_pages : Int)
    (batches : List (Int × Int × String)) (k : Nat) (hk : k < batches.length)
    (m : String)
    (hfail : failureMark k
        (engine (batches.get ⟨k, hk⟩).1 (batches.get ⟨k, hk⟩).2.1) = some m) :
    (doclingRun engine total_pages (batches.take (k + 1))).2 =
        (doclingRun engine total_pages (batches.take k)).2 ++ [m] ∧
      (doclingRun engine total_pages (batches.take (k + 1))).1.failed_batches =
        (doclingRun engine total_pages (batches.take k)).1.failed_batches + 1 ∧
      (doclingRun engine total_pages (batches.take (k + 1))).1.successful_batches =
        (doclingRun engine total_pages (batches.take k)).1.successful_batches ∧
      (doclingRun engine total_pages (batches.take (k + 1))).1.processed_pages =
        (doclingRun engine total_pages (batches.take k)).1.processed_pages ∧
      (loadRun engine batches).1.length = batches.length := by
  have htake : batches.take (k + 1) = batches.take k ++ [batches.get ⟨k, hk⟩] := by
    rw [List.take_succ]
    congr
    rw [List.getElem?_eq_getElem hk]
    rfl
  have hlen : (batches.take k).length = k := by
    rw [List.length_take]
    omega
  rcases hrk : doclingRun engine total_pages (batches.take k) with ⟨stats_k, sink_k⟩
  rcases hb : batches.get ⟨k, hk⟩ with ⟨s, e, d⟩
  rw [hb] at htake hfail
  have hrun : doclingRun engine total_pages (batches.take (k + 1)) =
      doclingStep engine k (s, e, d) stats_k sink_k := by
    rw [doclingRun, htake, doclingLoop_append engine _ _ 0 _, hlen, ← doclingRun, hrk,
      Nat.zero_add]
    rfl
  have hledger : (loadRun engine batches).1.length = batches.length := by
    have h := (loadLoop_ledger engine batches 0 ([], 0, 0)).1
    rw [loadRun, h]
    simp
  rcases heng : engine s e with md | st | msg
  · rw [heng] at hfail
    exact absurd hfail (by simp [failureMark])
  · rw [heng, failureMark] at hfail
    obtain rfl := Option.some.inj hfail
    refine ⟨?_, ?_, ?_, ?_, hledger⟩ <;> rw [hrun] <;> simp [doclingStep, heng]
  · rw [heng, failureMark] at hfail
    obtain rfl := Option.some.inj hfail
    refine ⟨?_, ?_, ?_, ?_, hledger⟩ <;> rw [hrun] <;> simp [doclingStep, heng]

/-- A concrete engine for witnesses: fails (non-success status) exactly on
the batch starting at page 6, succeeds elsewhere. -/
def demoEngine : Engine := fun s _ =>
  if s = 6 then EngineOutcome.failure "ConversionStatus.FAILURE"
  else EngineOutcome.success "content"

/-- Witness for `batch_failure_isolated`: three fixed batches of 5 pages
over 15 pages, with the engine failing on the second batch. -/
theorem batch_failure_isolated_witness :
    (1 < (fixedBatches 15 5).length ∧
      failureMark 1
          (demoEngine ((fixedBatches 15 5).get ⟨1, by decide⟩).1
            ((fixedBatches 15 5).get ⟨1, by decide⟩).2.1) =
        some "\n<!-- BATCH 2 FAILED: ConversionStatus.FAILURE -->\n\n") ∧
      ((doclingRun demoEngine 15 ((fixedBatches 15 5).take (1 + 1))).2 =
          (doclingRun demoEngine 15 ((fixedBatches 15 5).take 1)).2 ++
            ["\n<!-- BATCH 2 FAILED: ConversionStatus.FAILURE -->\n\n"] ∧
        (doclingRun demoEngine 15 ((fixedBatches 15 5).take (1 + 1))).1.failed_batches =
          (doclingRun demoEngine 15 ((fixedBatches 15 5).take 1)).1.failed_batches + 1 ∧
        (doclingRun demoEngine 15 ((fixedBatches 15 5).take (1 + 1))).1.successful_batches =
          (doclingRun demoEngine 15 ((fixedBatches 15 5).take 1)).1.successful_batches ∧
        (doclingRun demoEngine 15 ((fixedBatches 15 5).take (1 + 1))).1.processed_pages =
          (doclingRun demoEngine 15 ((fixedBatches 15 5).take 1)).1.processed_pages ∧
        (loadRun demoEngine (fixedBatches 15 5)).1.length = (fixedBatches 15 5).length) :=
  ⟨⟨by decide, by decide⟩,
    batch_failure_isolated demoEngine 15 (fixedBatches 15 5) 1 (by decide)
      "\n<!-- BATCH 2 FAILED: ConversionStatus.FAILURE -->\n\n" (by decide)⟩

/-! ## Claims about the batch size calculator -/

/-- C5: with `min_batch_size ≥ 1`, `max_batch_size ≥ min_batch_size`,
`safety_margin ∈ (0, 1]`, `memory_per_page_mb > 0` and
`available_ram_gb - overhead_gb > 0`, `calculate_batch_size` succeeds and
returns `recommended_batch_size = clamp(⌊safe_max_pages⌋, min_batch_size,
max_batch_size)`, which therefore lies in
`[min_batch_size, max_batch_size]`. -/
theorem calculate_batch_size_clamp
    (available_ram_gb memory_per_page_mb overhead_gb safety_margin : ℚ)
    (min_batch_size max_batch_size : Int)
    (_hmin : 1 ≤ min_batch_size) (hminmax : min_batch_size ≤ max_batch_size)
    (hm0 : 0 < safety_margin) (_hm1 : safety_margin ≤ 1)
    (hmpp : 0 < memory_per_page_mb)
    (husable : 0 < available_ram_gb - overhead_gb) :
    ∃ r, calculate_batch_size available_ram_gb memory_per_page_mb overhead_gb
          safety_margin min_batch_size max_batch_size = Except.ok r ∧
      r.recommended_batch_size =
        max min_batch_size
          (min ⌊(available_ram_gb - overhead_gb) * 1024 / memory_per_page_mb * safety_margin⌋
            max_batch_size) ∧
      min_batch_size ≤ r.recommended_batch_size ∧
      r.recommended_batch_size ≤ max_batch_size := by
  have hnot : ¬ available_ram_gb - overhead_gb ≤ 0 := not_le.mpr husable
  have hsafe : (0 : ℚ) <
      (available_ram_gb - overhead_gb) * 1024 / memory_per_page_mb * safety_margin :=
    mul_pos (div_pos (mul_pos husable (by norm_num)) hmpp) hm0
  simp only [calculate_batch_size]
  rw [if_neg hnot]
  refine ⟨_, rfl, ?_, ?_, ?_⟩
  · simp only [truncInt, if_pos hsafe.le]
    rw [max_comm, min_comm]
  · simp only
    exact le_max_right _ _
  · simp only
    exact max_le (min_le_left _ _) hminmax

/-- Witness for `calculate_batch_size_clamp` at
`(available, mpp, overhead, margin, min, max) = (4, 68, 1, 1, 1, 500)`. -/
theorem calculate_batch_size_clamp_witness :
    ((1 : Int) ≤ 1 ∧ (1 : Int) ≤ 500 ∧ (0 : ℚ) < 1 ∧ (1 : ℚ) ≤ 1 ∧
      (0 : ℚ) < 68 ∧ (0 : ℚ) < 4 - 1) ∧
      ∃ r, calculate_batch_size 4 68 1 1 1 500 = Except.ok r ∧
        r.recommended_batch_size = max 1 (min ⌊(4 - 1 : ℚ) * 1024 / 68 * 1⌋ 500) ∧
        (1 : Int) ≤ r.recommended_batch_size ∧ r.recommended_batch_size ≤ 500 :=
  ⟨⟨by decide, by decide, by norm_num, by norm_num, by norm_num, by norm_num⟩,
    calculate_batch_size_clamp 4 68 1 1 1 500 (by decide) (by decide) (by norm_num)
      (by norm_num) (by norm_num) (by norm_num)⟩

/-- C6: `calculate_batch_size` fails if and only if
`available_ram_gb - overhead_gb ≤ 0`, and when it fails the error is the
insufficient-memory error carrying the available amount and the required
(overhead) amount; in that case no result record is produced. -/
theorem calculate_batch_size_insufficient
    (available_ram_gb memory_per_page_mb overhead_gb safety_margin : ℚ)
    (min_batch_size max_batch_size : Int) :
    (calculate_batch_size available_ram_gb memory_per_page_mb overhead_gb safety_margin
          min_batch_size max_batch_size =
        Except.error (BatchSizeError.insufficientMemory available_ram_gb overhead_gb) ↔
      available_ram_gb - overhead_gb ≤ 0) ∧
      ((∃ e, calculate_batch_size available_ram_gb memory_per_page_mb overhead_gb
            safety_margin min_batch_size max_batch_size = Except.error e) ↔
        available_ram_gb - overhead_gb ≤ 0) := by
  by_cases h : available_ram_gb - overhead_gb ≤ 0
  · constructor
    · simp [calculate_batch_size, h]
    · simp [calculate_batch_size, h]
  · constructor
    · simp [calculate_batch_size, h]
    · simp [calculate_batch_size, h]

/-- C7: with all other parameters fixed and the no-error precondition
satisfied, the recommendation of `calculate_batch_size` is monotonically
non-decreasing in `available_ram_gb` and monotonically non-increasing in
`memory_per_page_mb`. -/
theorem calculate_batch_size_monotone :
    (∀ (a1 a2 memory_per_page_mb overhead_gb safety_margin : ℚ)
        (min_batch_size max_batch_size : Int),
      0 < safety_margin → 0 < memory_per_page_mb → 0 < a1 - overhead_gb → a1 ≤ a2 →
      ∃ r1 r2,
        calculate_batch_size a1 memory_per_page_mb overhead_gb safety_margin
            min_batch_size max_batch_size = Except.ok r1 ∧
        calculate_batch_size a2 memory_per_page_mb overhead_gb safety_margin
            min_batch_size max_batch_size = Except.ok r2 ∧
        r1.recommended_batch_size ≤ r2.recommended_batch_size) ∧
    (∀ (available_ram_gb m1 m2 overhead_gb safety_margin : ℚ)
        (min_batch_size max_batch_size : Int),
      0 < safety_margin → 0 < m1 → m1 ≤ m2 → 0 < available_ram_gb - overhead_gb →
      ∃ r1 r2,
        calculate_batch_size available_ram_gb m1 overhead_gb safety_margin
            min_batch_size max_batch_size = Except.ok r1 ∧
        calculate_batch_size available_ram_gb m2 overhead_gb safety_margin
            min_batch_size max_batch_size = Except.ok r2 ∧
        r2.recommended_batch_size ≤ r1.recommended_batch_size) := by
  constructor
  · intro a1 a2 memory_per_page_mb overhead_gb safety_margin min_batch_size max_batch_size
      hm0 hmpp h1 h12
    have h2 : 0 < a2 - overhead_gb := by linarith
    have hsafe : (a1 - overhead_gb) * 1024 / memory_per_page_mb * safety_margin ≤
        (a2 - overhead_gb) * 1024 / memory_per_page_mb * safety_margin := by
      gcongr
    have hs1 : (0 : ℚ) ≤ (a1 - overhead_gb) * 1024 / memory_per_page_mb * safety_margin :=
      (mul_pos (div_pos (mul_pos h1 (by norm_num)) hmpp) hm0).le
    have hs2 : (0 : ℚ) ≤ (a2 - overhead_gb) * 1024 / memory_per_page_mb * safety_margin :=
      (mul_pos (div_pos (mul_pos h2 (by norm_num)) hmpp) hm0).le
    simp only [calculate_batch_size]
    rw [if_neg (not_le.mpr h1), if_neg (not_le.mpr h2)]
    refine ⟨_, _, rfl, rfl, ?_⟩
    simp only [truncInt, if_pos hs1, if_pos hs2]
    exact max_le_max (min_le_min (le_refl _) (Int.floor_le_floor hsafe)) (le_refl _)
  · intro available_ram_gb m1 m2 overhead_gb safety_margin min_batch_size max_batch_size
      hm0 hmpp1 h12 hu
    have hmpp2 : (0 : ℚ) < m2 := lt_of_lt_of_le hmpp1 h12
    have hsafe : (available_ram_gb - overhead_gb) * 1024 / m2 * safety_margin ≤
        (available_ram_gb - overhead_gb) * 1024 / m1 * safety_margin := by
      gcongr
    have hs1 : (0 : ℚ) ≤ (available_ram_gb - overhead_gb) * 1024 / m1 * safety_margin :=
      (mul_pos (div_pos (mul_pos hu (by norm_num)) hmpp1) hm0).le
    have hs2 : (0 : ℚ) ≤ (available_ram_gb - overhead_gb) * 1024 / m2 * safety_margin :=
      (mul_pos (div_pos (mul_pos hu (by norm_num)) hmpp2) hm0).le
    simp only [calculate_batch_size]
    rw [if_neg (not_le.mpr hu), if_neg (not_le.mpr hu)]
    refine ⟨_, _, rfl, rfl, ?_⟩
    simp only [truncInt, if_pos hs1, if_pos hs2]
    exact max_le_max (min_le_min (le_refl _) (Int.floor_le_floor hsafe)) (le_refl _)

/-- Witness for `calculate_batch_size_monotone`: available memory 4 vs 8 GB
(others fixed at `mpp = 68, overhead = 1, margin = 1, min = 1, max = 500`),
and memory per page 34 vs 68 MB (available fixed at 4 GB). -/
theorem calculate_batch_size_monotone_witness :
    ((0 : ℚ) < 1 ∧ (0 : ℚ) < 68 ∧ (0 : ℚ) < 4 - 1 ∧ (4 : ℚ) ≤ 8 ∧
      (0 : ℚ) < 34 ∧ (34 : ℚ) ≤ 68) ∧
      (∃ r1 r2,
        calculate_batch_size 4 68 1 1 1 500 = Except.ok r1 ∧
        calculate_batch_size 8 68 1 1 1 500 = Except.ok r2 ∧
        r1.recommended_batch_size ≤ r2.recommended_batch_size) ∧
      (∃ r1 r2,
        calculate_batch_size 4 34 1 1 1 500 = Except.ok r1 ∧
        calculate_batch_size 4 68 1 1 1 500 = Except.ok r2 ∧
        r2.recommended_batch_size ≤ r1.recommended_batch_size) :=
  ⟨⟨by norm_num, by norm_num, by norm_num, by norm_num, by norm_num, by norm_num⟩,
    calculate_batch_size_monotone.1 4 8 68 1 1 1 500 (by norm_num) (by norm_num)
      (by norm_num) (by norm_num),
    calculate_batch_size_monotone.2 4 34 68 1 1 1 500 (by norm_num) (by norm_num)
      (by norm_num) (by norm_num)⟩

end Bibliophage
